import Mathlib

/-!
Verification of the ShortsRanker media pipeline against its design document.

The development embeds the pure content of the repository sources
(`video-processor`, `script-generator`, `tts-service` and the two API
routes): the ambient JavaScript runtime is made explicit (random draws,
environment variables, remote-call outcomes and the availability of the
external media tool become parameters), machine numbers are modeled over
`Nat`/`Int`/`Rat` (with an explicit binary64 rounding model where the
floating-point evaluation is observable), and file-system effects are
reduced to the paths and byte strings the code computes.
-/

namespace ShortsRanker

set_option maxRecDepth 16384

/-! ## JavaScript primitives -/

/-- Whitespace test matching the characters the regex class in
`split(/\s+/)` recognises on the ASCII range (space, tab, line feed,
carriage return, vertical tab, form feed).  The texts the program handles
are ASCII apart from emoji glyphs, which are not whitespace. -/
def isJsWs (c : Char) : Bool :=
  c = ' ' || c = '\t' || c = '\n' || c = '\r' || c = '\x0b' || c = '\x0c'

/-- JavaScript truthiness of a possibly-absent string (environment
variables, optional fields): `undefined` and the empty string are falsy. -/
def jsTruthy : Option String → Bool
  | none => false
  | some s => !(s == "")

/-- State machine computing the JavaScript call `s.split(/\s+/)`: every
maximal whitespace run separates two fields, and a leading or trailing run
contributes an empty field.  `lastWs` records whether the previous
character was part of a whitespace run, `cur` holds the current field
reversed, `acc` the completed fields reversed. -/
def jsSplitWsGo : List Char → Bool → List Char → List (List Char) → List (List Char)
  | [], _, cur, acc => (cur.reverse :: acc).reverse
  | c :: cs, lastWs, cur, acc =>
    if isJsWs c then
      if lastWs then jsSplitWsGo cs true [] acc
      else jsSplitWsGo cs true [] (cur.reverse :: acc)
    else jsSplitWsGo cs false (c :: cur) acc

/-- JavaScript `s.split(/\s+/)` on a character list. -/
def jsSplitWs (s : List Char) : List (List Char) := jsSplitWsGo s false [] []

/-- Word count exactly as the sources compute it:
`script.split(/\s+/).length`. -/
def wordCountStr (s : String) : Nat := (jsSplitWs s.toList).length

/-- Number of fields `jsSplitWs` still produces for the remaining input,
given whether the previous character was whitespace. -/
def jsFieldCount : List Char → Bool → Nat
  | [], _ => 1
  | c :: cs, lastWs =>
    if isJsWs c then (if lastWs then 0 else 1) + jsFieldCount cs true
    else jsFieldCount cs false

/-- Number of whitespace-delimited tokens (maximal nonempty runs of
non-whitespace characters) in the remaining input; `inTok` records whether
the previous character belonged to a token. -/
def wsTokenCountGo : List Char → Bool → Nat
  | [], _ => 0
  | c :: cs, inTok =>
    if isJsWs c then wsTokenCountGo cs false
    else (if inTok then 0 else 1) + wsTokenCountGo cs true

/-- Number of whitespace-delimited tokens of a character list.  This is the
specification-side reading of "word count". -/
def wsTokenCount (s : List Char) : Nat := wsTokenCountGo s false

/-- A text is edge-clean when it is nonempty and neither starts nor ends
with whitespace.  Every script the template generator emits and every
polished script the generator accepts has this shape (the template banks
start and end with printable characters, and the polishing cleanup trims
its result). -/
def cleanEdges (s : List Char) : Bool :=
  match s.head?, s.getLast? with
  | some a, some b => !isJsWs a && !isJsWs b
  | _, _ => false

/-! ## Binary64 rounding model

The script-duration estimate is computed by `Math.ceil((wordCount / 150) * 60)`
on IEEE binary64 numbers, and the rounding of the two arithmetic steps is
observable in the result (first at a word count of 155).  The model below
rounds exact rationals to 53 significant bits with round-to-nearest,
ties-to-even, which is exactly what binary64 arithmetic does on the
magnitudes involved (no underflow or overflow occurs). -/

/-- Fueled floor of the base-2 logarithm (`myLog2 fuel n = ⌊log₂ n⌋` for
`n ≥ 1` once `fuel` bounds the recursion depth). -/
def myLog2 : Nat → Nat → Nat
  | 0, _ => 0
  | fuel + 1, n => if n ≤ 1 then 0 else myLog2 fuel (n / 2) + 1

/-- Floor of the base-2 logarithm, with fuel 200 (enough for every number
below `2 ^ 200`, far beyond the magnitudes the pipeline produces). -/
def natLog2 (n : Nat) : Nat := myLog2 200 n

/-- Round `a / b` (for `b > 0`) to the nearest integer, ties to even. -/
def rhe (a b : Nat) : Nat :=
  let q := a / b
  let r := a % b
  if 2 * r < b then q
  else if b < 2 * r then q + 1
  else if q % 2 = 0 then q else q + 1

/-- A (nonnegative) binary64 value `m * 2 ^ e` in mantissa-exponent form. -/
structure FP where
  m : Nat
  e : Int
  deriving DecidableEq

/-- Round the exact rational `a / b` (for `b > 0`) to binary64 precision:
the mantissa keeps 53 significant bits, rounding to nearest with ties to
even.  `natLog2 (a * 2 ^ 64 / b) - 64` is `⌊log₂ (a / b)⌋`, valid whenever
`a / b ≥ 2 ^ (-64)`, which covers every quotient the pipeline forms. -/
def flRat (a b : Nat) : FP :=
  if a = 0 then ⟨0, 0⟩
  else
    let e64 := natLog2 (a * 2 ^ 64 / b)
    if e64 ≤ 116 then ⟨rhe (a * 2 ^ (116 - e64)) b, (e64 : Int) - 116⟩
    else ⟨rhe a (b * 2 ^ (e64 - 116)), (e64 : Int) - 116⟩

/-- Binary64 product of a represented value with a small natural constant:
the exact product `m * c * 2 ^ e` is re-rounded to 53 bits. -/
def flMulNat (x : FP) (c : Nat) : FP :=
  if 0 ≤ x.e then flRat (x.m * c * 2 ^ x.e.toNat) 1
  else flRat (x.m * c) (2 ^ (-x.e).toNat)

/-- Ceiling of a represented binary64 value, as a natural number. -/
def fpCeil (x : FP) : Nat :=
  if 0 ≤ x.e then x.m * 2 ^ x.e.toNat
  else (x.m + 2 ^ (-x.e).toNat - 1) / 2 ^ (-x.e).toNat

/-- The duration estimate `Math.ceil((wordCount / 150) * 60)` of the
sources (`SCRIPT_CONFIG.wordsPerMinute = TTS_CONFIG.wordsPerMinute = 150`),
with both arithmetic steps rounded to binary64 precision. -/
def jsDurCeil (wc : Nat) : Nat := fpCeil (flMulNat (flRat wc 150) 60)

/-- The duration formula read as exact arithmetic,
`⌈wc / 150 * 60⌉ = ⌈wc * 60 / 150⌉`, as a natural number. -/
def exactDurCeil (wc : Nat) : Nat := (wc * 60 + 149) / 150

/-! ## Environment

The modules read `process.env` ad hoc; the relevant variables are gathered
in one record.  A `none` field is an unset variable; `some ""` is a
variable set to the empty string, which JavaScript truthiness treats like
an unset one. -/

structure Env where
  ttsService : Option String := none
  elevenLabsKey : Option String := none
  huggingFaceKey : Option String := none
  useCoquiTTS : Option String := none

/-! ## Script generator (`script-generator`)

Randomness is made explicit: `rand k` is the value `Math.floor(Math.random()
* options.length)` would produce at the `k`-th draw of the run, reduced
modulo the bank size when indexing.  The remote polishing call is an oracle
argument `polish`: `none` models a thrown error, an empty or short reply,
or all models exhausted (every case in which `polishScriptWithLLM` yields
no usable text), `some p` models a reply that survived `cleanLLMOutput`. -/

structure RankingItem where
  rank : Int
  titleOrName : String
  description : Option String
  deriving DecidableEq

inductive Style
  | energetic
  | casual
  | professional
  deriving DecidableEq

structure ScriptOptions where
  topic : Option String := none
  style : Option Style := none
  includeEmojis : Option Bool := none
  useLLM : Option Bool := none

structure ScriptResult where
  script : String
  wasPolished : Bool
  wordCount : Nat
  estimatedDuration : Nat
  deriving DecidableEq

/-- Emoji interpolation `${emoji ? g : ""}`. -/
def emo (emoji : Bool) (g : String) : String := if emoji then g else ""

/-- Uniform pick `options[Math.floor(Math.random() * options.length)]`,
with the draw `r` supplied explicitly and reduced modulo the bank size. -/
def pickRand (opts : List String) (r : Nat) : String := opts.getD (r % opts.length) ""

/-- Intro bank of `getIntro`, keyed by style. -/
def getIntro (topicText : String) (style : Style) (emoji : Bool) (r : Nat) : String :=
  let opts : List String :=
    match style with
    | .energetic =>
      [ "What\x27s up everyone! " ++ emo emoji "🔥" ++ " Welcome back to the channel. Today we\x27re counting down the top 5" ++ topicText ++ " that absolutely blew our minds. Let\x27s get into it!"
      , "Hey there! " ++ emo emoji "👋" ++ " You\x27re about to see the most incredible" ++ topicText ++ " ranked from number 5 all the way to number 1. Trust me, you don\x27t want to miss the top spot!"
      , "Welcome to today\x27s countdown! " ++ emo emoji "🎬" ++ " We\x27ve got 5 amazing" ++ topicText ++ " to show you, and I guarantee number 1 will leave you speechless. Let\x27s go!" ]
    | .casual =>
      [ "Hey, what\x27s going on? So today I\x27m ranking the top 5" ++ topicText ++ ". Let\x27s see what we\x27ve got."
      , "Alright, so I put together my top 5" ++ topicText ++ " for you. Let me know if you agree with this list."
      , "Hey everyone. Today we\x27re looking at my top 5" ++ topicText ++ ". Some of these might surprise you." ]
    | .professional =>
      [ "Welcome. Today we present a curated selection of the top 5" ++ topicText ++ ", ranked for your consideration."
      , "In this presentation, we\x27ll be examining the top 5" ++ topicText ++ ", carefully selected and ranked."
      , "Thank you for joining us. Today\x27s countdown features the top 5" ++ topicText ++ " in our collection." ]
  pickRand opts r

/-- Rank-introduction bank of `getRankIntro`, keyed by style and rank, with
the literal fallback for a rank outside 1 to 5. -/
def getRankIntro (rank : Int) (style : Style) (emoji : Bool) (r : Nat) : String :=
  let opts : List String :=
    match style with
    | .energetic =>
      match rank with
      | 5 => [ emo emoji "🔹" ++ " Kicking things off at number 5..."
             , emo emoji "🔹" ++ " Starting our countdown at number 5, we have..."
             , emo emoji "🔹" ++ " Coming in at number 5 to get us started..." ]
      | 4 => [ emo emoji "🔸" ++ " Moving up to number 4..."
             , emo emoji "🔸" ++ " At number 4, things are heating up..."
             , emo emoji "🔸" ++ " Sliding into the number 4 spot..." ]
      | 3 => [ emo emoji "🥉" ++ " Now we\x27re getting serious! At number 3..."
             , emo emoji "🥉" ++ " The bronze medal goes to number 3..."
             , emo emoji "🥉" ++ " Claiming the number 3 spot..." ]
      | 2 => [ emo emoji "🥈" ++ " So close to the top! At number 2..."
             , emo emoji "🥈" ++ " The runner-up at number 2..."
             , emo emoji "🥈" ++ " Just barely missing the top spot, at number 2..." ]
      | 1 => [ emo emoji "🥇" ++ " And finally, the moment you\x27ve been waiting for! Number 1 is..."
             , emo emoji "🥇" ++ " The undisputed champion at number 1..."
             , emo emoji "🥇" ++ " Taking the crown at number 1, we have..." ]
      | _ => [ "At number " ++ toString rank ++ "..." ]
    | .casual =>
      match rank with
      | 5 => [ "At number 5...", "Starting off at 5...", "Kicking us off..." ]
      | 4 => [ "Number 4...", "Moving to 4...", "At 4 we have..." ]
      | 3 => [ "Now at number 3...", "The 3 spot goes to...", "Coming in at 3..." ]
      | 2 => [ "Almost at the top, number 2...", "Just missing first, at 2...", "The runner-up..." ]
      | 1 => [ "And number 1...", "Taking the top spot...", "My number 1 pick..." ]
      | _ => [ "At number " ++ toString rank ++ "..." ]
    | .professional =>
      match rank with
      | 5 => [ "Beginning at position five...", "In fifth position...", "Our fifth entry..." ]
      | 4 => [ "At position four...", "Moving to fourth place...", "Fourth in our ranking..." ]
      | 3 => [ "In third position...", "Our bronze placement...", "At number three..." ]
      | 2 => [ "In second position...", "Our silver placement...", "Taking second place..." ]
      | 1 => [ "Our top selection...", "In first position...", "The leading entry..." ]
      | _ => [ "At number " ++ toString rank ++ "..." ]
  pickRand opts r

/-- The title cleanup of `getDefaultDescription`: the regex replacement
`title.replace(/\.[^/.]+$/, "")` removes a final `.extension` (a dot
followed by a nonempty run of characters containing neither a dot nor a
slash, at the end of the string). -/
def stripExtTitle (l : List Char) : List Char :=
  let rev := l.reverse
  let ext := rev.takeWhile (fun c => !(c = '.' || c = '/'))
  match rev.drop ext.length with
  | '.' :: restRev => if ext = [] then l else restRev.reverse
  | _ => l

/-- The second replacement `.replace(/[-_]/g, " ")` turning separators into
spaces, after the extension strip. -/
def jsCleanTitle (s : String) : String :=
  String.mk ((stripExtTitle s.toList).map (fun c => if c = '-' || c = '_' then ' ' else c))

/-- Default-description bank of `getDefaultDescription`, keyed by style and
rank, with the literal fallback for a rank outside 1 to 5. -/
def getDefaultDescription (rank : Int) (title : String) (style : Style) (r : Nat) : String :=
  let cleanTitle := jsCleanTitle title
  let opts : List String :=
    match style with
    | .energetic =>
      match rank with
      | 5 => [ "This one kicks off our list perfectly. " ++ cleanTitle ++ " sets the bar high right from the start!"
             , "A solid entry to begin our countdown. " ++ cleanTitle ++ " shows us what we\x27re working with!" ]
      | 4 => [ "Now we\x27re talking! " ++ cleanTitle ++ " really impressed us and earned this spot."
             , "Things are getting better. " ++ cleanTitle ++ " brings the heat at number 4!" ]
      | 3 => [ "This is where it gets competitive. " ++ cleanTitle ++ " is absolutely top-tier content!"
             , "On the podium at number 3! " ++ cleanTitle ++ " definitely deserves this recognition." ]
      | 2 => [ "So incredibly close to the top! " ++ cleanTitle ++ " is absolutely phenomenal. Any other day, this could\x27ve been number 1!"
             , "The runner-up is no joke. " ++ cleanTitle ++ " had us on the edge of our seats!" ]
      | 1 => [ "The champion! " ++ cleanTitle ++ " blew everything else out of the water. This is peak content right here!"
             , "Absolutely unbeatable! " ++ cleanTitle ++ " earned this spot and then some. Simply incredible!" ]
      | _ => [ "An impressive entry that deserves recognition." ]
    | .casual =>
      match rank with
      | 5 => [ cleanTitle ++ " is a good starting point.", "Solid pick with " ++ cleanTitle ++ "." ]
      | 4 => [ cleanTitle ++ " is really good.", "I liked " ++ cleanTitle ++ " a lot." ]
      | 3 => [ cleanTitle ++ " is excellent.", "Really impressed by " ++ cleanTitle ++ "." ]
      | 2 => [ cleanTitle ++ " almost took the top spot.", "So close! " ++ cleanTitle ++ " is amazing." ]
      | 1 => [ cleanTitle ++ " is my favorite.", "Had to give it to " ++ cleanTitle ++ ". The best!" ]
      | _ => [ "An impressive entry that deserves recognition." ]
    | .professional =>
      match rank with
      | 5 => [ cleanTitle ++ " demonstrates notable qualities that merit inclusion." ]
      | 4 => [ cleanTitle ++ " exhibits commendable attributes worthy of recognition." ]
      | 3 => [ cleanTitle ++ " stands out with exceptional merit and quality." ]
      | 2 => [ cleanTitle ++ " presents outstanding characteristics, narrowly missing first." ]
      | 1 => [ cleanTitle ++ " exemplifies the highest standard in this category." ]
      | _ => [ "An impressive entry that deserves recognition." ]
  pickRand opts r

/-- Outro bank of `getOutro`, keyed by style (each entry carries its
leading blank line). -/
def getOutro (style : Style) (emoji : Bool) (r : Nat) : String :=
  let opts : List String :=
    match style with
    | .energetic =>
      [ "\n\nAnd that wraps up our top 5! " ++ emo emoji "🙌" ++ " If you enjoyed this countdown, smash that like button and subscribe for more content like this. Drop a comment below telling me which one was YOUR favorite. See you in the next one!"
      , "\n\nThere you have it, folks! The ultimate top 5. " ++ emo emoji "💯" ++ " Did your favorite make the list? Let me know in the comments! Don\x27t forget to like and subscribe if you want more countdowns. Peace!"
      , "\n\nWhat a list! " ++ emo emoji "🔥" ++ " If you made it this far, you\x27re a real one. Hit that subscribe button and turn on notifications so you never miss a countdown. Until next time!" ]
    | .casual =>
      [ "\n\nSo that\x27s my top 5. Let me know in the comments what you think. See you next time."
      , "\n\nThat\x27s the list. Would love to hear your thoughts. Thanks for watching."
      , "\n\nAnd that\x27s it! Hope you enjoyed. Leave a comment with your picks." ]
    | .professional =>
      [ "\n\nThis concludes our presentation of the top 5 selections. We welcome your feedback and comments."
      , "\n\nThank you for your attention. We hope you found this ranking informative and engaging."
      , "\n\nThis concludes our ranking. We appreciate your viewership and welcome your perspectives." ]
  pickRand opts r

/-- Descending-rank order on ranking items, the comparator
`(a, b) => b.rank - a.rank` of the source. -/
def itemRankGe (a b : RankingItem) : Prop := b.rank ≤ a.rank

instance : DecidableRel itemRankGe :=
  fun a b => inferInstanceAs (Decidable (b.rank ≤ a.rank))

instance : IsTotal RankingItem itemRankGe :=
  ⟨fun a b => le_total b.rank a.rank⟩

instance : IsTrans RankingItem itemRankGe :=
  ⟨fun _ _ _ hab hbc => le_trans hbc hab⟩

/-- The body of `generateTemplateScript`: intro, one section per item (rank
introduction plus caller description or canned filler), outro.  The draw
counter is threaded left to right exactly as the JavaScript engine
evaluates the `Math.random()` calls (the filler draw happens only when the
description is absent or blank, because the conditional operator evaluates
lazily). -/
def generateTemplateScript (rand : Nat → Nat) (items : List RankingItem)
    (topic : Option String) (style : Style) (includeEmojis : Bool) : String :=
  let topicText :=
    match topic with
    | some t => if t = "" then " clips" else " " ++ t
    | none => " clips"
  let intro := getIntro topicText style includeEmojis (rand 0)
  let folded := items.foldl
    (fun (st : String × Nat) item =>
      let rankIntro := getRankIntro item.rank style includeEmojis (rand st.2)
      match item.description with
      | some d =>
        if d.trim ≠ "" then
          (st.1 ++ "\n\n" ++ rankIntro ++ "\n" ++ d, st.2 + 1)
        else
          (st.1 ++ "\n\n" ++ rankIntro ++ "\n" ++
            getDefaultDescription item.rank item.titleOrName style (rand (st.2 + 1)),
           st.2 + 2)
      | none =>
        (st.1 ++ "\n\n" ++ rankIntro ++ "\n" ++
          getDefaultDescription item.rank item.titleOrName style (rand (st.2 + 1)),
         st.2 + 2))
    ("", 1)
  let outro := getOutro style includeEmojis (rand folded.2)
  intro ++ folded.1 ++ outro

/-- The `generateRankingScript` entry point: defaulted options, descending
sort, template generation, optional polishing (attempted only when `useLLM`
is requested and the Hugging Face key is truthy; an untruthy polish result
is discarded), then word count and the binary64 duration estimate. -/
def generateRankingScript (rand : Nat → Nat) (env : Env) (polish : Option String)
    (rankingData : List RankingItem) (topic : Option String)
    (options : ScriptOptions) : ScriptResult :=
  let style := options.style.getD .energetic
  let includeEmojis := options.includeEmojis.getD true
  let useLLM := options.useLLM.getD false
  let sortedData := List.insertionSort itemRankGe rankingData
  let script0 := generateTemplateScript rand sortedData
    (if jsTruthy topic then topic else options.topic) style includeEmojis
  let polished :=
    if useLLM && jsTruthy env.huggingFaceKey then polish else none
  let sc : String × Bool :=
    match polished with
    | some p => if p ≠ "" then (p, true) else (script0, false)
    | none => (script0, false)
  let wordCount := wordCountStr sc.1
  ⟨sc.1, sc.2, wordCount, jsDurCeil wordCount⟩

/-- The standalone `estimateScriptDuration` utility:
`Math.ceil((script.split(/\s+/).length / 150) * 60)`. -/
def estimateScriptDuration (script : String) : Nat :=
  jsDurCeil (wordCountStr script)

/-! ## Speech synthesis (`tts-service`)

Remote exchanges and the availability of the external media tool are
oracle parameters; everything else is computed as in the source. -/

inductive TTSService
  | mock
  | huggingface
  | elevenlabs
  | coqui
  deriving DecidableEq

structure TTSResult where
  audioPath : String
  duration : Nat
  service : String
  deriving DecidableEq

/-- Key-and-flag cascade of `detectTTSService` once no valid explicit
service name applies: premium key, then free key, then the local-engine
flag compared literally against `"true"`, then mock. -/
def autoDetectTTS (env : Env) : TTSService :=
  if jsTruthy env.elevenLabsKey then .elevenlabs
  else if jsTruthy env.huggingFaceKey then .huggingface
  else if env.useCoquiTTS = some "true" then .coqui
  else .mock

/-- Backend detection `detectTTSService`: the lowercased `TTS_SERVICE`
value wins when it is one of the four known names (the empty string is
not, so the truthiness guard of the source is subsumed); otherwise the
cascade decides.  The function reads nothing but the environment. -/
def detectTTSService (env : Env) : TTSService :=
  match env.ttsService.map String.toLower with
  | some s =>
    if s = "mock" then .mock
    else if s = "huggingface" then .huggingface
    else if s = "elevenlabs" then .elevenlabs
    else if s = "coqui" then .coqui
    else autoDetectTTS env
  | none => autoDetectTTS env

/-- Case-insensitive suffix test
`outputPath.toLowerCase().endsWith('.wav')` (lowercasing is ASCII, as are
the paths the program forms). -/
def endsWithWavCI (l : List Char) : Bool :=
  (l.map Char.toLower).reverse.take 4 == ['v', 'a', 'w', '.']

/-- The regex replacement `outputPath.replace(/\.[^.]+$/, '.wav')`: when
the path ends in a dot followed by a nonempty run of non-dot characters,
that final extension becomes `.wav`; otherwise (no dot, or a trailing
dot) the path is returned unchanged. -/
def replaceExtWav (l : List Char) : List Char :=
  let rev := l.reverse
  let ext := rev.takeWhile (fun c => !(c = '.'))
  match rev.drop ext.length with
  | '.' :: restRev => if ext = [] then l else restRev.reverse ++ ('.' :: ['w', 'a', 'v'])
  | _ => l

/-- Path the WAV fallback of the mock backend actually writes (and
returns): the requested path, with its extension rewritten to `.wav`
unless it already ends in `.wav` in any case. -/
def mockWavPath (outputPath : String) : String :=
  if endsWithWavCI outputPath.toList then outputPath
  else String.mk (replaceExtWav outputPath.toList)

/-- The mock backend `generateMockTTS`.  With the external media tool
available it writes silence to the requested path; otherwise it writes a
silent WAV in-process (44-byte header, zeroed sample data) after rewriting
the extension to `.wav` when needed.  Either way the result reports the
word-count duration with a floor of ten seconds and the service name
`"mock"`.  File-system failures, which make the source throw, are outside
the model. -/
def generateMockTTS (ffmpegAvailable : Bool) (scriptText outputPath : String) :
    TTSResult :=
  let wordCount := wordCountStr scriptText
  let duration := max 10 (jsDurCeil wordCount)
  if ffmpegAvailable then ⟨outputPath, duration, "mock"⟩
  else ⟨mockWavPath outputPath, duration, "mock"⟩

/-- The free-tier backend `generateHuggingFaceTTS`: a falsy API key falls
back to the mock backend immediately; `remoteOk` is the oracle for the
whole chunked remote exchange, whose failure also degrades to mock.  A
successful exchange reports the requested path and the word-count duration
under the service name `"huggingface"`. -/
def generateHuggingFaceTTS (env : Env) (ffmpegAvailable remoteOk : Bool)
    (scriptText outputPath : String) : TTSResult :=
  if !jsTruthy env.huggingFaceKey then
    generateMockTTS ffmpegAvailable scriptText outputPath
  else if remoteOk then
    ⟨outputPath, jsDurCeil (wordCountStr scriptText), "huggingface"⟩
  else
    generateMockTTS ffmpegAvailable scriptText outputPath

/-- The premium backend `generateElevenLabsTTS`: a falsy API key falls
back to the mock backend; a failure of the single remote call is fatal
(the source throws instead of degrading). -/
def generateElevenLabsTTS (env : Env) (ffmpegAvailable remoteOk : Bool)
    (scriptText outputPath : String) : Except String TTSResult :=
  if !jsTruthy env.elevenLabsKey then
    .ok (generateMockTTS ffmpegAvailable scriptText outputPath)
  else if remoteOk then
    .ok ⟨outputPath, jsDurCeil (wordCountStr scriptText), "elevenlabs"⟩
  else
    .error "ElevenLabs TTS failed"

/-! ## Video processing (`video-processor`) -/

/-- Output geometry of `VIDEO_CONFIG`. -/
def targetWidth : Nat := 1080

/-- Output height of `VIDEO_CONFIG`. -/
def targetHeight : Nat := 1920

/-- Output frame rate of `VIDEO_CONFIG`. -/
def targetFps : Nat := 30

/-- A JavaScript number arising from dividing two nonnegative quantities:
a finite value, positive infinity (`x / 0` for `x > 0`), or NaN
(`0 / 0`).  Finite values are exact rationals; for the probe dimensions
(integers well below `2 ^ 40`) the binary64 quotient falls on the same
side of the target aspect ratio as the exact quotient, since `9 / 16` is
exactly representable and the distance `|w / h - 9 / 16| ≥ 1 / (16 h)`
dwarfs the rounding error. -/
inductive JsNum
  | nan
  | posInf
  | fin (q : ℚ)
  deriving DecidableEq

/-- Division `a / b` of two JavaScript numbers holding naturals. -/
def jsDivNat (a b : Nat) : JsNum :=
  if b = 0 then (if a = 0 then .nan else .posInf) else .fin ((a : ℚ) / (b : ℚ))

/-- Comparison `x > q`: false whenever `x` is NaN. -/
def jsGtB : JsNum → ℚ → Bool
  | .nan, _ => false
  | .posInf, _ => true
  | .fin a, q => decide (q < a)

/-- Comparison `x < q`: false whenever `x` is NaN or infinite. -/
def jsLtB : JsNum → ℚ → Bool
  | .nan, _ => false
  | .posInf, _ => false
  | .fin a, q => decide (a < q)

/-- `Math.round`: round half away from zero upward, `⌊q + 1 / 2⌋`. -/
def jsRound (q : ℚ) : Int := ⌊q + 1 / 2⌋

/-- The target aspect ratio `targetWidth / targetHeight = 9 / 16`. -/
def targetAspect : ℚ := (targetWidth : ℚ) / (targetHeight : ℚ)

/-- One step of the `-vf` filter chain `normalizeVideo` builds. -/
inductive VFilter
  | crop (w h x y : Int)
  | scale (w h : Int)
  | scaleWidth (w : Int)
  | pad (w h : Int)
  | setsar
  | fps (n : Nat)
  deriving DecidableEq

/-- The filter chain `normalizeVideo` constructs from the probed input
dimensions: crop-then-scale when the input is wider than 9:16,
scale-to-width-then-pad when narrower, straight scale when equal (also
the path taken when the aspect ratio is NaN, since both comparisons are
then false); every branch forces square pixels and the target rate.  The
encoder flags and the surrounding command are not modeled. -/
def normalizeVideo (inW inH : Nat) : List VFilter :=
  let inputAspect := jsDivNat inW inH
  if jsGtB inputAspect targetAspect then
    let cropWidth := jsRound ((inH : ℚ) * targetAspect)
    let cropX := jsRound (((inW : ℚ) - (cropWidth : ℚ)) / 2)
    [.crop cropWidth inH cropX 0, .scale targetWidth targetHeight, .setsar, .fps targetFps]
  else if jsLtB inputAspect targetAspect then
    [.scaleWidth targetWidth, .pad targetWidth targetHeight, .setsar, .fps targetFps]
  else
    [.scale targetWidth targetHeight, .setsar, .fps targetFps]

/-! ### The probe (`getVideoInfo` and `evalFps`) -/

/-- Splitter for `fpsString.split("/")`, accumulator style. -/
def splitOnCharGo (sep : Char) : List Char → List Char → List (List Char)
  | [], cur => [cur.reverse]
  | c :: cs, cur =>
    if c = sep then cur.reverse :: splitOnCharGo sep cs []
    else splitOnCharGo sep cs (c :: cur)

/-- JavaScript `s.split(sep)` for a one-character separator. -/
def splitOnChar (sep : Char) (l : List Char) : List (List Char) :=
  splitOnCharGo sep l []

/-- Numeric value of a decimal digit character. -/
def digitVal (c : Char) : Nat := c.toNat - 48

/-- Value of a digit string. -/
def digitsVal (l : List Char) : Nat :=
  l.foldl (fun a c => a * 10 + digitVal c) 0

/-- JavaScript `Number(str)` restricted to the numeral shapes frame-rate
components take: the empty string is `0`, a nonempty digit string denotes
its decimal value, anything else is NaN (`none`).  Values are exact; the
integers involved stay far below `2 ^ 53`, where binary64 is exact. -/
def jsNumber (l : List Char) : Option ℚ :=
  if l = [] then some 0
  else if l.all Char.isDigit then some ((digitsVal l : ℚ)) else none

/-- JavaScript `parseFloat` restricted to decimal numerals: the longest
digit prefix, optionally followed by a dot and a fraction; no digits at
all is NaN.  Signs and exponents never occur in frame-rate strings. -/
def jsParseFloatSimple (l : List Char) : Option ℚ :=
  let intPart := l.takeWhile Char.isDigit
  if intPart = [] then none
  else
    match l.drop intPart.length with
    | '.' :: fr =>
      let frd := fr.takeWhile Char.isDigit
      some ((digitsVal intPart : ℚ) + (digitsVal frd : ℚ) / (10 ^ frd.length : ℚ))
    | _ => some ((digitsVal intPart : ℚ))

/-- The frame-rate parser `evalFps`.  A string containing a slash is split
there and the two components pass through `Number`; a truthy denominator
(neither `0` nor NaN) yields the quotient `num / den`, an untruthy one
yields 30.  Without a slash, `parseFloat(s) || 30` applies.  `none` is a
NaN result (a NaN numerator over a truthy denominator).  Division is exact
rational division; binary64 rounding of the quotient is not modeled (it
never moves a quotient onto or off an integer for the rationals
involved). -/
def evalFps (l : List Char) : Option ℚ :=
  if l.contains '/' then
    let parts := splitOnChar '/' l
    let num := jsNumber (parts.getD 0 [])
    let den := jsNumber (parts.getD 1 [])
    match den with
    | some d =>
      if d ≠ 0 then
        match num with
        | some n => some (n / d)
        | none => none
      else some 30
    | none => some 30
  else
    match jsParseFloatSimple l with
    | some q => if q ≠ 0 then some q else some 30
    | none => some 30

/-- Fields of the video stream the probe reads (each may be absent in the
tool output). -/
structure VStream where
  width : Option Nat
  height : Option Nat
  rFrameRate : Option (List Char)
  durationStr : Option (List Char)
  codecName : Option String

/-- Parsed probe output: an optional video stream, whether an audio stream
exists, and the container duration string. -/
structure ProbeData where
  videoStream : Option VStream
  hasAudioStream : Bool
  formatDurationStr : Option (List Char)

/-- Probe result record returned by `getVideoInfo`.  `fps` is `none` when
the parsed rate is NaN. -/
structure VideoInfo where
  width : Nat
  height : Nat
  duration : Option ℚ
  fps : Option ℚ
  hasAudio : Bool
  codec : String
  deriving DecidableEq

/-- The `getVideoInfo` probe: on any failure (`probe = none`, covering a
missing file, an unreadable container or a tool error) the documented
default record is returned; otherwise each field falls back through the
`||` chains of the source. -/
def getVideoInfo (probe : Option ProbeData) : VideoInfo :=
  match probe with
  | none => ⟨0, 0, some 0, some 30, false, "unknown"⟩
  | some info =>
    let vs := info.videoStream
    { width := ((vs.bind VStream.width).getD 0)
      height := ((vs.bind VStream.height).getD 0)
      duration := jsParseFloatSimple
        ((info.formatDurationStr.or (vs.bind VStream.durationStr)).getD ['0'])
      fps := evalFps ((vs.bind VStream.rFrameRate).getD ['3', '0', '/', '1'])
      hasAudio := info.hasAudioStream
      codec := ((vs.bind VStream.codecName).getD "unknown") }

/-! ### Sorting, concatenation and the pipeline -/

structure RankedVideo where
  path : String
  rank : Int
  description : Option String
  deriving DecidableEq

/-- Descending-rank order on ranked videos, the comparator
`(a, b) => b.rank - a.rank` of `sortVideosByRank`. -/
def rankGe (a b : RankedVideo) : Prop := b.rank ≤ a.rank

instance : DecidableRel rankGe :=
  fun a b => inferInstanceAs (Decidable (b.rank ≤ a.rank))

instance : IsTotal RankedVideo rankGe :=
  ⟨fun a b => le_total b.rank a.rank⟩

instance : IsTrans RankedVideo rankGe :=
  ⟨fun _ _ _ hab hbc => le_trans hbc hab⟩

/-- `sortVideosByRank`: a stable sort under the comparator
`(a, b) => b.rank - a.rank`, so ranks descend.  Any stable sorting
algorithm produces the same list, so insertion sort stands in for the
engine sort. -/
def sortVideosByRank (videos : List RankedVideo) : List RankedVideo :=
  List.insertionSort rankGe videos

/-- Body of the `concat_list.txt` manifest `concatenateVideos` writes:
one line `file '<path>'` per input, in the given order. -/
def concatFileContent (paths : List String) : String :=
  String.intercalate "\n" (paths.map (fun p => "file \x27" ++ p ++ "\x27"))

/-- Data-flow plan of `processVideoPipeline`: the sorted clip list, the
per-step intermediate paths (indexed in sorted order), the order handed to
the concatenation step and the manifest it writes.  The external tool
invocations themselves are effects outside the model. -/
structure PipelinePlan where
  sortedVideos : List RankedVideo
  normalizedPaths : List String
  overlayPaths : List String
  concatOrder : List String
  concatManifest : String
  deriving DecidableEq

/-- The pure plan of `processVideoPipeline`: sort by rank descending,
normalize into `normalized_<i>.mp4`, optionally overlay into
`overlay_<i>.mp4` (same index `i` in sorted order), then concatenate the
resulting paths in that order. -/
def processVideoPipeline (videos : List RankedVideo) (tempDir : String)
    (addOverlays : Bool) : PipelinePlan :=
  let sorted := sortVideosByRank videos
  let normalizedPaths := (List.range sorted.length).map
    (fun i => tempDir ++ "/normalized_" ++ toString i ++ ".mp4")
  let overlayPaths :=
    if addOverlays then
      (List.range sorted.length).map
        (fun i => tempDir ++ "/overlay_" ++ toString i ++ ".mp4")
    else normalizedPaths
  ⟨sorted, normalizedPaths, overlayPaths, overlayPaths, concatFileContent overlayPaths⟩

/-! ## API routes -/

/-- One entry of the `videos` array of a narration request.  The `rank`
field is an arbitrary JSON number: the route checks only
`typeof video.rank !== "number"`, so any numeric value arrives here,
integer or not.  JSON numbers are binary64 values, all of which are
rationals (JSON cannot encode NaN or infinities), so `rank : ℚ` with a
numeric field models exactly the requests that survive the `typeof`
check; requests whose rank is not a number are rejected by that check and
never reach the further validation modeled below. -/
structure VideoInput where
  tempId : String
  title : String
  rank : ℚ
  description : Option String
  deriving DecidableEq

/-- Acceptance predicate of the generate-script route: true exactly when
the request passes every early-return validation check and reaches script
generation.  In source order: the array has exactly five entries; every
entry has a truthy `tempId` and `title` and a numeric rank with
`rank < 1` and `rank > 5` both false; the `Set` of the five ranks has
size five.  Nothing here requires a rank to be an integer. -/
def validateGenerateScript (videos : List VideoInput) : Bool :=
  (videos.length == 5) &&
  videos.all (fun v => !(v.tempId == "") && !(v.title == "") &&
    decide (1 ≤ v.rank) && decide (v.rank ≤ 5)) &&
  ((videos.map (fun v => v.rank)).dedup.length == 5)

/-- The parts of one video slot of the multipart form the process-video
route reads: whether a file field with positive size is present, its
client file name, the `parseInt` result of the rank field (`none` models
NaN, from a missing or non-numeric field), and the description field. -/
structure ProcessFormEntry where
  hasFile : Bool
  fileName : String
  rankParsed : Option Int
  description : Option String

/-- A video-processing request: content type, the narration script field,
and the two accepted naming schemes for the five slots (`video1 … video5`
with `rank<i>`, and `video_0 … video_4` with `rank_<i>`). -/
structure ProcessVideoRequest where
  isMultipart : Bool
  finalScript : Option String
  named : Fin 5 → ProcessFormEntry
  indexed : Fin 5 → ProcessFormEntry

/-- `parseInt(field) || default`: a parse producing NaN or `0` is falsy
and falls back to the positional default. -/
def jsParseIntOr (v : Option Int) (d : Int) : Int :=
  match v with
  | some r => if r = 0 then d else r
  | none => d

/-- Collection loop over the `video1 … video5` scheme: a slot holding a
file contributes a clip whose rank is the parsed field or the positional
default `6 - i`. -/
def collectNamed (req : ProcessVideoRequest) : List RankedVideo :=
  (List.finRange 5).filterMap (fun i =>
    if (req.named i).hasFile then
      some ⟨(req.named i).fileName,
            jsParseIntOr (req.named i).rankParsed (6 - ((i : Nat) + 1 : Int)),
            some ((req.named i).description.getD "")⟩
    else none)

/-- Collection loop over the `video_0 … video_4` scheme, with positional
default `5 - i`. -/
def collectIndexed (req : ProcessVideoRequest) : List RankedVideo :=
  (List.finRange 5).filterMap (fun i =>
    if (req.indexed i).hasFile then
      some ⟨(req.indexed i).fileName,
            jsParseIntOr (req.indexed i).rankParsed (5 - ((i : Nat) : Int)),
            some ((req.indexed i).description.getD "")⟩
    else none)

/-- Validation of the process-video route: multipart content type, a
truthy `finalScript`, and exactly five collected files (the second naming
scheme is tried when the first finds none).  `some clips` means the
request reaches synthesis and the pipeline with these clips.  No check on
the rank values themselves appears anywhere on this path. -/
def processVideoValidate (req : ProcessVideoRequest) : Option (List RankedVideo) :=
  if !req.isMultipart then none
  else if !jsTruthy req.finalScript then none
  else
    let vids := collectNamed req
    let vids := if vids.length = 0 then collectIndexed req else vids
    if vids.length = 5 then some vids else none

/-! ## Concrete inputs used by the witnesses and counterexamples -/

/-- A script of `n` words: `n` letters separated by single spaces. -/
def repWords (n : Nat) : String :=
  String.mk (List.intersperse ' ' (List.replicate n 'a'))

/-- Five ranking items with ranks in upload order 3, 1, 5, 2, 4. -/
def exampleItems : List RankingItem :=
  [⟨3, "clip-three.mp4", none⟩, ⟨1, "clip-one.mp4", some "the best save"⟩,
   ⟨5, "clip-five.mp4", none⟩, ⟨2, "clip-two.mp4", some "so close"⟩,
   ⟨4, "clip-four.mp4", none⟩]

/-- Five ranked clips with ranks in upload order 3, 1, 5, 2, 4. -/
def exampleClips : List RankedVideo :=
  [⟨"input_0.mp4", 3, none⟩, ⟨"input_1.mp4", 1, none⟩, ⟨"input_2.mp4", 5, none⟩,
   ⟨"input_3.mp4", 2, none⟩, ⟨"input_4.mp4", 4, none⟩]

/-- Five valid narration-request entries with ranks 3, 1, 5, 2, 4. -/
def exampleInputs : List VideoInput :=
  [⟨"a", "clip-three.mp4", 3, none⟩, ⟨"b", "clip-one.mp4", 1, none⟩,
   ⟨"c", "clip-five.mp4", 5, none⟩, ⟨"d", "clip-two.mp4", 2, none⟩,
   ⟨"e", "clip-four.mp4", 4, none⟩]

/-- A process-video request whose five rank fields all parse to 3. -/
def dupRankRequest : ProcessVideoRequest :=
  ⟨true, some "the narration script",
   fun _ => ⟨true, "clip.mp4", some 3, none⟩,
   fun _ => ⟨false, "", none, none⟩⟩

/-- The JSON number 2.5 (exactly representable in binary64), in lowest
terms. -/
def twoPointFive : ℚ := ⟨5, 2, by decide, by decide⟩

/-- Five narration-request entries whose ranks 1, 2, 2.5, 4, 5 are
numeric, in range and pairwise distinct — valid JSON the route
accepts — yet do not form the set 1–5. -/
def halfRankInputs : List VideoInput :=
  [⟨"a", "clip-one.mp4", 1, none⟩, ⟨"b", "clip-two.mp4", 2, none⟩,
   ⟨"c", "clip-half.mp4", twoPointFive, none⟩,
   ⟨"d", "clip-four.mp4", 4, none⟩, ⟨"e", "clip-five.mp4", 5, none⟩]

/-! ## Specification-side definitions

These follow the wording of the design document, to be compared with the
definitions taken from the sources. -/

/-- Backend choice as the design document words it: an explicitly
configured valid service name is used if present; otherwise the premium
key, the free key, and the local-engine flag (set to `"true"`) are
consulted in that order; otherwise mock.  A name is valid when its
lowercasing is one of the four backend names; a key counts as configured
when it is present and nonempty, matching how the source reads the
environment everywhere. -/
def specBackendChoice (env : Env) : TTSService :=
  let explicitName : Option TTSService :=
    match env.ttsService.map String.toLower with
    | some "mock" => some .mock
    | some "huggingface" => some .huggingface
    | some "elevenlabs" => some .elevenlabs
    | some "coqui" => some .coqui
    | _ => none
  match explicitName with
  | some svc => svc
  | none =>
    if jsTruthy env.elevenLabsKey then .elevenlabs
    else if jsTruthy env.huggingFaceKey then .huggingface
    else if env.useCoquiTTS = some "true" then .coqui
    else .mock

/-! ## Word count versus token count

On an edge-clean text the length of `split(/\s+/)` equals the number of
whitespace-delimited tokens; the lemmas below establish this by walking
whole character runs. -/

theorem jsSplitWsGo_length : ∀ (cs : List Char) (b : Bool) (cur : List Char)
    (acc : List (List Char)),
    (jsSplitWsGo cs b cur acc).length = acc.length + jsFieldCount cs b := by
  intro cs
  induction cs with
  | nil => intro b cur acc; simp [jsSplitWsGo, jsFieldCount]
  | cons c cs ih =>
    intro b cur acc
    by_cases hc : isJsWs c
    · by_cases hb : b
      · simp [jsSplitWsGo, jsFieldCount, hc, hb, ih]
      · simp [jsSplitWsGo, jsFieldCount, hc, hb, ih]
        omega
    · simp [jsSplitWsGo, jsFieldCount, hc, ih]

theorem jsFieldCount_flag (s : List Char) (hs : ∀ c ∈ s.head?, isJsWs c = false) :
    jsFieldCount s true = jsFieldCount s false := by
  cases s with
  | nil => rfl
  | cons c cs => simp [jsFieldCount, hs c rfl]

theorem jsFieldCount_nonws : ∀ (t r : List Char) (b : Bool), t ≠ [] →
    (∀ c ∈ t, isJsWs c = false) →
    jsFieldCount (t ++ r) b = jsFieldCount r false
  | [], _, _, hne, _ => absurd rfl hne
  | c :: cs, r, b, _, ht => by
    have hc : isJsWs c = false := ht c (List.mem_cons_self c cs)
    rcases eq_or_ne cs [] with h | h
    · subst h; simp [jsFieldCount, hc]
    · have ih := jsFieldCount_nonws cs r false h
        (fun x hx => ht x (List.mem_cons_of_mem _ hx))
      simpa [jsFieldCount, hc] using ih

theorem jsFieldCount_ws : ∀ (t r : List Char) (b : Bool), t ≠ [] →
    (∀ c ∈ t, isJsWs c = true) →
    jsFieldCount (t ++ r) b = (if b then 0 else 1) + jsFieldCount r true
  | [], _, _, hne, _ => absurd rfl hne
  | c :: cs, r, b, _, ht => by
    have hc : isJsWs c = true := ht c (List.mem_cons_self c cs)
    rcases eq_or_ne cs [] with h | h
    · subst h; simp [jsFieldCount, hc]
    · have ih := jsFieldCount_ws cs r true h
        (fun x hx => ht x (List.mem_cons_of_mem _ hx))
      simp [jsFieldCount, hc, ih]

theorem wsTokenCountGo_nonws : ∀ (t r : List Char) (b : Bool), t ≠ [] →
    (∀ c ∈ t, isJsWs c = false) →
    wsTokenCountGo (t ++ r) b = (if b then 0 else 1) + wsTokenCountGo r true
  | [], _, _, hne, _ => absurd rfl hne
  | c :: cs, r, b, _, ht => by
    have hc : isJsWs c = false := ht c (List.mem_cons_self c cs)
    rcases eq_or_ne cs [] with h | h
    · subst h; simp [wsTokenCountGo, hc]
    · have ih := wsTokenCountGo_nonws cs r true h
        (fun x hx => ht x (List.mem_cons_of_mem _ hx))
      simp [wsTokenCountGo, hc, ih]

theorem wsTokenCountGo_ws : ∀ (t r : List Char) (b : Bool), t ≠ [] →
    (∀ c ∈ t, isJsWs c = true) →
    wsTokenCountGo (t ++ r) b = wsTokenCountGo r false
  | [], _, _, hne, _ => absurd rfl hne
  | c :: cs, r, b, _, ht => by
    have hc : isJsWs c = true := ht c (List.mem_cons_self c cs)
    rcases eq_or_ne cs [] with h | h
    · subst h; simp [wsTokenCountGo, hc]
    · have ih := wsTokenCountGo_ws cs r false h
        (fun x hx => ht x (List.mem_cons_of_mem _ hx))
      simpa [wsTokenCountGo, hc] using ih

theorem head_dropWhile_false (p : Char → Bool) :
    ∀ (l : List Char) (c : Char) (cs : List Char),
      l.dropWhile p = c :: cs → p c = false := by
  intro l
  induction l with
  | nil => intro c cs h; simp [List.dropWhile] at h
  | cons a l ih =>
    intro c cs h
    by_cases pa : p a
    · rw [List.dropWhile_cons_of_pos pa] at h
      exact ih c cs h
    · rw [List.dropWhile_cons_of_neg pa] at h
      cases h
      simpa using pa

theorem cleanEdges_iff (s : List Char) :
    cleanEdges s = true ↔ ∃ a b, s.head? = some a ∧ s.getLast? = some b ∧
      isJsWs a = false ∧ isJsWs b = false := by
  cases ha : s.head? with
  | none =>
    simp only [cleanEdges, ha]
    simp
  | some a =>
    cases hb : s.getLast? with
    | none =>
      simp only [cleanEdges, ha, hb]
      simp
    | some b =>
      simp only [cleanEdges, ha, hb]
      constructor
      · intro h
        refine ⟨a, b, rfl, rfl, ?_, ?_⟩ <;> simp_all
      · rintro ⟨a', b', ha', hb', hwa, hwb⟩
        cases ha'; cases hb'; simp [hwa, hwb]

theorem fieldCount_eq_tokenCount :
    ∀ (n : Nat) (s : List Char), s.length ≤ n → cleanEdges s = true →
    jsFieldCount s false = wsTokenCountGo s false := by
  intro n
  induction n with
  | zero =>
    intro s hlen hclean
    have hnil : s = [] := List.length_eq_zero.mp (Nat.le_zero.mp hlen)
    subst hnil
    simp [cleanEdges] at hclean
  | succ n ih =>
    intro s hlen hclean
    obtain ⟨a, b, ha, hb, hwa, hwb⟩ := (cleanEdges_iff s).mp hclean
    -- split off the leading token
    have hsplit1 : s.takeWhile (fun c => !isJsWs c) ++
        s.dropWhile (fun c => !isJsWs c) = s :=
      List.takeWhile_append_dropWhile _ s
    have htne : s.takeWhile (fun c => !isJsWs c) ≠ [] := by
      cases s with
      | nil => simp at ha
      | cons c cs =>
        have hca : c = a := by simpa using ha
        subst hca
        simp [List.takeWhile_cons, hwa]
    have htall : ∀ c ∈ s.takeWhile (fun c => !isJsWs c), isJsWs c = false := by
      intro c hc
      have := List.mem_takeWhile_imp hc
      simpa using this
    rcases hrest : s.dropWhile (fun c => !isJsWs c) with _ | ⟨r0, rs⟩
    · -- no whitespace at all: one field, one token
      have hs' : s = s.takeWhile (fun c => !isJsWs c) ++ [] := by
        rw [List.append_nil]
        conv_lhs => rw [← hsplit1]
        rw [hrest, List.append_nil]
      conv_lhs => rw [hs']
      conv_rhs => rw [hs']
      rw [jsFieldCount_nonws _ [] false htne htall]
      rw [wsTokenCountGo_nonws _ [] false htne htall]
      simp [jsFieldCount, wsTokenCountGo]
    · -- a whitespace run follows the leading token
      have hr0 : isJsWs r0 = true := by
        have := head_dropWhile_false (fun c => !isJsWs c) s r0 rs hrest
        simpa using this
      have hsplit2 : (r0 :: rs).takeWhile isJsWs ++
          (r0 :: rs).dropWhile isJsWs = r0 :: rs :=
        List.takeWhile_append_dropWhile _ _
      have hwne : (r0 :: rs).takeWhile isJsWs ≠ [] := by
        simp [List.takeWhile_cons, hr0]
      have hwall : ∀ c ∈ (r0 :: rs).takeWhile isJsWs, isJsWs c = true := by
        intro c hc
        exact List.mem_takeWhile_imp hc
      have hs_eq : s = s.takeWhile (fun c => !isJsWs c) ++
          ((r0 :: rs).takeWhile isJsWs ++ (r0 :: rs).dropWhile isJsWs) := by
        rw [hsplit2, ← hrest, hsplit1]
      have hs2ne : (r0 :: rs).dropWhile isJsWs ≠ [] := by
        intro h2
        rw [h2, List.append_nil] at hs_eq
        have hlast : s.getLast? = ((r0 :: rs).takeWhile isJsWs).getLast? := by
          rw [hs_eq, List.getLast?_append]
          cases hwl : ((r0 :: rs).takeWhile isJsWs).getLast? with
          | none =>
            exact absurd (List.getLast?_eq_none_iff.mp hwl) hwne
          | some x => simp
        have hbw : b ∈ (r0 :: rs).takeWhile isJsWs := by
          apply List.mem_of_mem_getLast?
          rw [← hlast, hb]
          rfl
        have := hwall b hbw
        rw [this] at hwb
        exact absurd hwb (by simp)
      have hs2head : ∀ c ∈ ((r0 :: rs).dropWhile isJsWs).head?,
          isJsWs c = false := by
        intro c hc
        cases hs2 : (r0 :: rs).dropWhile isJsWs with
        | nil => rw [hs2] at hc; simp at hc
        | cons c2 cs2 =>
          have := head_dropWhile_false isJsWs (r0 :: rs) c2 cs2 hs2
          rw [hs2] at hc
          simp at hc
          subst hc
          exact this
      have hlast2 : ((r0 :: rs).dropWhile isJsWs).getLast? = some b := by
        cases hl2 : ((r0 :: rs).dropWhile isJsWs).getLast? with
        | none => exact absurd (List.getLast?_eq_none_iff.mp hl2) hs2ne
        | some x =>
          have hx : s.getLast? = some x := by
            rw [hs_eq, List.getLast?_append, List.getLast?_append, hl2]
            simp
          rw [hb] at hx
          simpa using hx.symm
      have hclean2 : cleanEdges ((r0 :: rs).dropWhile isJsWs) = true := by
        rw [cleanEdges_iff]
        cases hs2 : (r0 :: rs).dropWhile isJsWs with
        | nil => exact absurd hs2 hs2ne
        | cons c2 cs2 =>
          refine ⟨c2, b, rfl, ?_, ?_, hwb⟩
          · rw [← hs2, hlast2]
          · have := hs2head c2 (by rw [hs2]; rfl)
            exact this
      have hlen2 : ((r0 :: rs).dropWhile isJsWs).length ≤ n := by
        have hlenwd : ((r0 :: rs).takeWhile isJsWs).length +
            ((r0 :: rs).dropWhile isJsWs).length = rs.length + 1 := by
          have h0 := congrArg List.length hsplit2
          rw [List.length_append] at h0
          simpa using h0
        have hlentr : (s.takeWhile (fun c => !isJsWs c)).length +
            (rs.length + 1) = s.length := by
          have h0 := congrArg List.length hsplit1
          rw [hrest, List.length_append] at h0
          simpa using h0
        have ht1 : 1 ≤ (s.takeWhile (fun c => !isJsWs c)).length := by
          cases hT : s.takeWhile (fun c => !isJsWs c) with
          | nil => exact absurd hT htne
          | cons _ _ => simp
        have hw1 : 1 ≤ ((r0 :: rs).takeWhile isJsWs).length := by
          cases hW : (r0 :: rs).takeWhile isJsWs with
          | nil => exact absurd hW hwne
          | cons _ _ => simp
        omega
      have hih := ih ((r0 :: rs).dropWhile isJsWs) hlen2 hclean2
      conv_lhs => rw [hs_eq]
      conv_rhs => rw [hs_eq]
      rw [jsFieldCount_nonws _ _ false htne htall]
      rw [wsTokenCountGo_nonws _ _ false htne htall]
      rw [jsFieldCount_ws _ _ false hwne hwall]
      rw [wsTokenCountGo_ws _ _ true hwne hwall]
      rw [jsFieldCount_flag _ hs2head]
      rw [hih]

/-- On an edge-clean script the word count the sources report
(`split(/\s+/).length`) equals the number of whitespace-delimited tokens. -/
theorem wordCount_eq_tokenCount (s : String) (h : cleanEdges s.toList = true) :
    wordCountStr s = wsTokenCount s.toList := by
  unfold wordCountStr wsTokenCount jsSplitWs
  rw [jsSplitWsGo_length]
  simpa using fieldCount_eq_tokenCount s.toList.length s.toList le_rfl h

/-- The exact-arithmetic duration formula agrees with the ceiling of
`wc / 150 * 60` over the rationals. -/
theorem exactDurCeil_eq_ceil (wc : Nat) :
    (exactDurCeil wc : Int) = ⌈((wc : ℚ) / 150) * 60⌉ := by
  have hq : ((wc : ℚ) / 150) * 60 = ((wc * 60 : Nat) : ℚ) / 150 := by
    push_cast; ring
  have h1 : exactDurCeil wc * 150 ≤ wc * 60 + 149 := by
    unfold exactDurCeil; omega
  have h2 : wc * 60 + 149 < (exactDurCeil wc + 1) * 150 := by
    unfold exactDurCeil; omega
  have h1q : (exactDurCeil wc : ℚ) * 150 ≤ (wc : ℚ) * 60 + 149 := by
    exact_mod_cast h1
  have h2q : (wc : ℚ) * 60 + 149 < ((exactDurCeil wc : ℚ) + 1) * 150 := by
    exact_mod_cast h2
  rw [hq, eq_comm, Int.ceil_eq_iff]
  constructor
  · rw [lt_div_iff₀ (by norm_num : (0 : ℚ) < 150)]
    push_cast
    linarith
  · rw [div_le_iff₀ (by norm_num : (0 : ℚ) < 150)]
    have h3 : wc * 60 ≤ exactDurCeil wc * 150 := by
      unfold exactDurCeil
      omega
    exact_mod_cast h3

/-- Splitting walks a separator-free prefix into the accumulator. -/
theorem splitOnCharGo_through (sep : Char) (b : List Char) :
    ∀ (a cur : List Char), (∀ c ∈ a, c ≠ sep) →
      splitOnCharGo sep (a ++ sep :: b) cur =
        (cur.reverse ++ a) :: splitOnCharGo sep b [] := by
  intro a
  induction a with
  | nil => intro cur _; simp [splitOnCharGo]
  | cons c cs ih =>
    intro cur h
    have hc : ¬(c = sep) := h c (List.mem_cons_self c cs)
    have hrec := ih (c :: cur) (fun e he => h e (List.mem_cons_of_mem _ he))
    simp only [List.cons_append, splitOnCharGo, if_neg hc, List.append_eq]
    rw [hrec]
    simp

/-- A separator-free remainder is one single field. -/
theorem splitOnCharGo_no_sep (sep : Char) :
    ∀ (b cur : List Char), (∀ c ∈ b, c ≠ sep) →
      splitOnCharGo sep b cur = [cur.reverse ++ b] := by
  intro b
  induction b with
  | nil => intro cur _; simp [splitOnCharGo]
  | cons c cs ih =>
    intro cur h
    have hc : ¬(c = sep) := h c (List.mem_cons_self c cs)
    have hrec := ih (c :: cur) (fun e he => h e (List.mem_cons_of_mem _ he))
    simp only [splitOnCharGo, if_neg hc, List.append_eq]
    rw [hrec]
    simp

/-- `split` on a string with exactly one separator yields the two
surrounding pieces. -/
theorem splitOnChar_pair (sep : Char) (a b : List Char)
    (ha : ∀ c ∈ a, c ≠ sep) (hb : ∀ c ∈ b, c ≠ sep) :
    splitOnChar sep (a ++ sep :: b) = [a, b] := by
  unfold splitOnChar
  rw [splitOnCharGo_through sep b a [] ha]
  rw [splitOnCharGo_no_sep sep b [] hb]
  simp

/-- A digit string contains no slash. -/
theorem digits_no_slash (a : List Char) (hd : a.all Char.isDigit = true) :
    ∀ c ∈ a, c ≠ '/' := by
  intro c hc heq
  have h1 := List.all_eq_true.mp hd c hc
  rw [heq] at h1
  exact absurd h1 (by decide)

/-- `Number` of a nonempty digit string is its decimal value. -/
theorem jsNumber_digits (a : List Char) (hne : a ≠ []) (hd : a.all Char.isDigit = true) :
    jsNumber a = some ((digitsVal a : ℚ)) := by
  unfold jsNumber
  rw [if_neg hne, if_pos hd]

/-- `takeWhile`/`dropWhile` through a clean prefix followed by a failing
element. -/
theorem takeWhile_all_append (p : Char → Bool) :
    ∀ (x : List Char) (d : Char) (y : List Char),
      (∀ c ∈ x, p c = true) → p d = false →
      (x ++ d :: y).takeWhile p = x ∧ (x ++ d :: y).dropWhile p = d :: y := by
  intro x
  induction x with
  | nil =>
    intro d y _ hd
    simp [List.takeWhile_cons, List.dropWhile_cons, hd]
  | cons c cs ih =>
    intro d y hx hd
    have hc : p c = true := hx c (List.mem_cons_self c cs)
    have hrec := ih d y (fun e he => hx e (List.mem_cons_of_mem _ he)) hd
    simp [List.takeWhile_cons, List.dropWhile_cons, hc, hrec.1, hrec.2]

/-- The regex rewrite on a path of the form `pre.ext` with a dot-free
nonempty extension replaces the extension by `wav`. -/
theorem replaceExtWav_ext (pre ext : List Char)
    (hne : ext ≠ []) (hnodot : ∀ c ∈ ext, c ≠ '.') :
    replaceExtWav (pre ++ '.' :: ext) = pre ++ '.' :: ['w', 'a', 'v'] := by
  have hrev : (pre ++ '.' :: ext).reverse = ext.reverse ++ '.' :: pre.reverse := by
    simp
  have hall : ∀ c ∈ ext.reverse, (!(c = '.')) = true := by
    intro c hc
    have := hnodot c (List.mem_reverse.mp hc)
    simpa using this
  have hdot : (!(('.' : Char) = '.')) = false := by simp
  obtain ⟨ht, hd⟩ :=
    takeWhile_all_append (fun c => !(c = '.')) ext.reverse '.' pre.reverse hall hdot
  have hne' : ext.reverse ≠ [] := by simpa using hne
  simp only [replaceExtWav, hrev, ht]
  rw [List.drop_left]
  simp [hne']

/-- A path ending in `.wav` passes the case-insensitive suffix test. -/
theorem endsWithWavCI_wav (pre : List Char) :
    endsWithWavCI (pre ++ '.' :: ['w', 'a', 'v']) = true := by
  have hmu : (('.' :: ['w', 'a', 'v']).map Char.toLower) = '.' :: ['w', 'a', 'v'] := by
    decide
  unfold endsWithWavCI
  rw [List.map_append, hmu, List.reverse_append]
  rw [show ('.' :: ['w', 'a', 'v'] : List Char).reverse = ['v', 'a', 'w', '.'] from rfl]
  rw [show (4 : Nat) = (['v', 'a', 'w', '.'] : List Char).length from rfl]
  rw [List.take_left]
  decide

/-! ## The claims -/

/-- C5: the speech synthesizer's backend is chosen from configuration
alone, in the precedence order explicit-valid-name, premium key, free key,
local-engine flag, mock; `detectTTSService` is a pure function of the
environment record (re-read on every call) and agrees with the
specification-side precedence list on every environment. -/
theorem detectTTSService_follows_precedence (env : Env) :
    detectTTSService env = specBackendChoice env := by
  unfold detectTTSService specBackendChoice autoDetectTTS
  cases henv : env.ttsService with
  | none => rfl
  | some s =>
    simp only [Option.map_some']
    by_cases h1 : s.toLower = "mock"
    · simp [h1]
    · by_cases h2 : s.toLower = "huggingface"
      · simp [h1, h2]
      · by_cases h3 : s.toLower = "elevenlabs"
        · simp [h1, h2, h3]
        · by_cases h4 : s.toLower = "coqui"
          · simp [h1, h2, h3, h4]
          · simp [h1, h2, h3, h4]

/-- C9: a failed probe yields the default record with zero width and
height, `normalizeVideo` then compares `0 / 0` (NaN) against the target
aspect ratio, both comparisons are false, and the equal-aspect branch
runs: a straight scale to 1080x1920 with square pixels at 30 fps, not the
crop or the pad chain.  Normalization is a total function of the probed
dimensions, so it proceeds rather than aborting. -/
theorem probe_failure_takes_scale_branch :
    getVideoInfo none = ⟨0, 0, some 0, some 30, false, "unknown"⟩ ∧
    normalizeVideo 0 0 = [.scale targetWidth targetHeight, .setsar, .fps targetFps] ∧
    (∀ cw cx : Int, normalizeVideo 0 0 ≠
      [.crop cw 0 cx 0, .scale targetWidth targetHeight, .setsar, .fps targetFps]) ∧
    normalizeVideo 0 0 ≠
      [.scaleWidth targetWidth, .pad targetWidth targetHeight, .setsar, .fps targetFps] := by
  refine ⟨rfl, rfl, ?_, ?_⟩
  · intro cw cx
    simp [normalizeVideo, jsDivNat, jsGtB, jsLtB]
  · simp [normalizeVideo, jsDivNat, jsGtB, jsLtB]

/-- C1 counterexample: the claim fails on both routes.  A narration
request with the ranks 1, 2, 2.5, 4, 5 — all numeric, in range and
pairwise distinct, hence valid JSON that the route's `typeof`, bounds and
`Set`-size checks all accept — reaches script generation although its
ranks do not form the set 1–5.  And a process-video request whose five
rank fields all parse to 3 passes every check of that route (multipart,
script present, five files) and reaches processing with the duplicate
ranks 3, 3, 3, 3, 3: that route never validates rank range or uniqueness
at all. -/
theorem ranks_validation_incomplete :
    validateGenerateScript halfRankInputs = true ∧
    (halfRankInputs.map VideoInput.rank).toFinset ≠ ({1, 2, 3, 4, 5} : Finset ℚ) ∧
    (processVideoValidate dupRankRequest).map (fun vids => vids.map RankedVideo.rank)
      = some [3, 3, 3, 3, 3] ∧
    ¬ ([3, 3, 3, 3, 3] : List Int).Nodup := by
  refine ⟨?_, ?_, ?_, ?_⟩
  · decide
  · decide
  · decide
  · decide

/-- C1 (amended): the narration route rejects duplicate and out-of-range
ranks before any processing, so every narration request that reaches
generation has exactly five entries with pairwise-distinct ranks in the
interval 1–5; but since ranks are arbitrary JSON numbers and no
integrality is checked, such a request may carry a non-integer rank
(for example 2.5), so its ranks need not form exactly the set
{1,2,3,4,5} — they do whenever all five ranks are integers.  The
video-processing route, by contrast, validates only that five files are
present, and a request with duplicate ranks reaches processing there. -/
theorem generateScript_ranks_permutation (videos : List VideoInput)
    (h : validateGenerateScript videos = true) :
    (videos.length = 5 ∧ (videos.map VideoInput.rank).Nodup ∧
      (∀ r ∈ videos.map VideoInput.rank, 1 ≤ r ∧ r ≤ 5) ∧
      ((∀ r ∈ videos.map VideoInput.rank, ∃ n : Int, (n : ℚ) = r) →
        (videos.map VideoInput.rank).toFinset = ({1, 2, 3, 4, 5} : Finset ℚ))) ∧
    ((processVideoValidate dupRankRequest).map
        (fun vids => vids.map RankedVideo.rank) = some [3, 3, 3, 3, 3]) := by
  refine ⟨?_, by decide⟩
  unfold validateGenerateScript at h
  simp only [Bool.and_eq_true, beq_iff_eq, List.all_eq_true, Bool.not_eq_true',
    decide_eq_true_eq] at h
  obtain ⟨⟨h5, hall⟩, hdedup⟩ := h
  have hlenmap : (videos.map VideoInput.rank).length = 5 := by
    simp [h5]
  have hsub : (videos.map VideoInput.rank).dedup.Sublist (videos.map VideoInput.rank) :=
    List.dedup_sublist _
  have hdedupeq : (videos.map VideoInput.rank).dedup = videos.map VideoInput.rank :=
    hsub.eq_of_length (by rw [hdedup, hlenmap])
  have hnodup : (videos.map VideoInput.rank).Nodup :=
    List.dedup_eq_self.mp hdedupeq
  have hbounds : ∀ r ∈ videos.map VideoInput.rank, 1 ≤ r ∧ r ≤ 5 := by
    intro r hr
    rw [List.mem_map] at hr
    obtain ⟨v, hv, hvr⟩ := hr
    obtain ⟨⟨⟨-, -⟩, hx1⟩, hx2⟩ := hall v hv
    exact ⟨by rw [← hvr]; exact hx1, by rw [← hvr]; exact hx2⟩
  refine ⟨h5, hnodup, hbounds, ?_⟩
  intro hint
  have hcard : (videos.map VideoInput.rank).toFinset.card = 5 := by
    rw [List.card_toFinset, hdedup]
  have hsubset : (videos.map VideoInput.rank).toFinset ⊆ ({1, 2, 3, 4, 5} : Finset ℚ) := by
    intro x hx
    rw [List.mem_toFinset] at hx
    obtain ⟨h1x, h2x⟩ := hbounds x hx
    obtain ⟨n, hn⟩ := hint x hx
    have h1n : (1 : Int) ≤ n := by exact_mod_cast hn ▸ h1x
    have h2n : n ≤ (5 : Int) := by exact_mod_cast hn ▸ h2x
    have hcases : n = 1 ∨ n = 2 ∨ n = 3 ∨ n = 4 ∨ n = 5 := by omega
    rw [← hn]
    rcases hcases with rfl | rfl | rfl | rfl | rfl
    · decide
    · decide
    · decide
    · decide
    · decide
  exact Finset.eq_of_subset_of_card_le hsubset (by rw [hcard]; decide)

/-- C1 witness: the amended statement applied to a concrete valid
narration request with the integer ranks 3, 1, 5, 2, 4, whose rank set is
exactly 1–5. -/
theorem generateScript_ranks_permutation_witness :
    validateGenerateScript exampleInputs = true ∧
    (exampleInputs.map VideoInput.rank).toFinset = ({1, 2, 3, 4, 5} : Finset ℚ) :=
  ⟨by decide,
   (generateScript_ranks_permutation exampleInputs (by decide)).1.2.2.2 (by
     intro r hr
     simp only [exampleInputs, List.map_cons, List.map_nil, List.mem_cons,
       List.not_mem_nil, or_false] at hr
     rcases hr with rfl | rfl | rfl | rfl | rfl
     · exact ⟨3, by decide⟩
     · exact ⟨1, by decide⟩
     · exact ⟨5, by decide⟩
     · exact ⟨2, by decide⟩
     · exact ⟨4, by decide⟩)⟩

/-- C8: with no Hugging Face key configured, narration generation with
`useLLM = true` takes the same path as with `useLLM = false` (the
polishing condition requires both the flag and a truthy key), so for one
and the same sequence of random draws the two runs produce byte-identical
results, with `wasPolished` false in both. -/
theorem useLLM_without_key_identical (rand : Nat → Nat) (env : Env)
    (polish : Option String) (items : List RankingItem)
    (topic ot : Option String) (st : Option Style)
    (h : jsTruthy env.huggingFaceKey = false) :
    generateRankingScript rand env polish items topic ⟨ot, st, some false, some true⟩ =
      generateRankingScript rand env none items topic ⟨ot, st, some false, some false⟩ ∧
    (generateRankingScript rand env polish items topic
      ⟨ot, st, some false, some true⟩).wasPolished = false := by
  unfold generateRankingScript
  simp [h]

/-- C8 witness: byte-identical results at a concrete input (five items,
a topic, casual style, no emojis) with no configured key. -/
theorem useLLM_without_key_identical_witness :
    jsTruthy (none : Option String) = false ∧
    generateRankingScript (fun _ => 0) ⟨none, none, none, none⟩ (some "polished")
        exampleItems (some "gaming clips") ⟨none, some .casual, some false, some true⟩ =
      generateRankingScript (fun _ => 0) ⟨none, none, none, none⟩ none
        exampleItems (some "gaming clips") ⟨none, some .casual, some false, some false⟩ :=
  ⟨rfl, (useLLM_without_key_identical (fun _ => 0) ⟨none, none, none, none⟩
    (some "polished") exampleItems (some "gaming clips") none (some .casual) rfl).1⟩

/-- C6 counterexample: with no key configured the free-tier backend does
fall back to mock, but on a 155-word text the reported duration is 63
seconds, while `max(10, ceil(wordCount / 150 * 60))`, read as exact
arithmetic over the whitespace-token count, is 62 (`exactDurCeil` is that
ceiling by `exactDurCeil_eq_ceil`); the binary64 evaluation the code
performs exceeds the claimed value by one. -/
theorem hfTTS_fallback_duration_off_by_one :
    (generateHuggingFaceTTS ⟨none, none, none, none⟩ true true (repWords 155)
      "voiceover.mp3").service = "mock" ∧
    (generateHuggingFaceTTS ⟨none, none, none, none⟩ true true (repWords 155)
      "voiceover.mp3").duration = 63 ∧
    wsTokenCount (repWords 155).toList = 155 ∧
    max 10 (exactDurCeil 155) = 62 := by
  refine ⟨by decide, by decide, by decide, by decide⟩

/-- C6 (amended): requesting the free-tier backend with a falsy key (or
the premium backend with a falsy key) returns exactly the mock result:
`backendUsed` is `"mock"` and the duration is
`max(10, ceil(wordCount / 150 * 60))` with the ceiling evaluated in
binary64 arithmetic (which can exceed the exact value by one); on an
edge-clean text the word count is the whitespace-token count. -/
theorem tts_missing_key_falls_back_to_mock (env env' : Env)
    (ffa ok : Bool) (text path : String)
    (h1 : jsTruthy env.huggingFaceKey = false)
    (h2 : jsTruthy env'.elevenLabsKey = false) :
    generateHuggingFaceTTS env ffa ok text path = generateMockTTS ffa text path ∧
    generateElevenLabsTTS env' ffa ok text path = .ok (generateMockTTS ffa text path) ∧
    (generateMockTTS ffa text path).service = "mock" ∧
    (generateMockTTS ffa text path).duration = max 10 (jsDurCeil (wordCountStr text)) ∧
    (cleanEdges text.toList = true →
      (generateMockTTS ffa text path).duration =
        max 10 (jsDurCeil (wsTokenCount text.toList))) := by
  refine ⟨?_, ?_, ?_, ?_, ?_⟩
  · unfold generateHuggingFaceTTS
    rw [h1]
    simp
  · unfold generateElevenLabsTTS
    rw [h2]
    simp
  · unfold generateMockTTS
    cases ffa <;> simp
  · unfold generateMockTTS
    cases ffa <;> simp
  · intro hc
    unfold generateMockTTS
    rw [wordCount_eq_tokenCount text hc]
    cases ffa <;> simp

/-- C6 witness: the fallback applied to a concrete short text with both
keys unset; the mock floor of ten seconds shows as well. -/
theorem tts_missing_key_falls_back_to_mock_witness :
    jsTruthy (none : Option String) = false ∧
    generateHuggingFaceTTS ⟨none, none, none, none⟩ true true "hello world"
        "voiceover.mp3" = generateMockTTS true "hello world" "voiceover.mp3" ∧
    (generateMockTTS true "hello world" "voiceover.mp3").duration = 10 :=
  ⟨rfl,
   (tts_missing_key_falls_back_to_mock ⟨none, none, none, none⟩
     ⟨none, none, none, none⟩ true true "hello world" "voiceover.mp3" rfl rfl).1,
   by decide⟩

/-- C3 counterexample: a 155-word script (155 letters separated by single
spaces) has reported word count 155, but the reported estimated duration
is 63 seconds while `ceil(wordCount / 150 * 60)` in exact arithmetic is 62
(`exactDurCeil` is that ceiling by `exactDurCeil_eq_ceil`): the binary64
evaluation the source performs rounds `155 / 150` up, so multiplying by 60
lands just above the integer 62. -/
theorem estimateDuration_off_by_one_at_155 :
    wordCountStr (repWords 155) = 155 ∧
    estimateScriptDuration (repWords 155) = 63 ∧
    exactDurCeil (wordCountStr (repWords 155)) = 62 ∧
    estimateScriptDuration (repWords 155) ≠ exactDurCeil (wordCountStr (repWords 155)) := by
  refine ⟨by decide, by decide, by decide, by decide⟩

/-- C3 (amended): for every edge-clean final script the reported word
count equals the number of whitespace-delimited tokens, and the reported
estimated duration is `ceil(wordCount / 150 * 60)` as evaluated in
binary64 arithmetic — which can exceed the exact ceiling by one (first at
155 words), though a 250-word script still yields 100 seconds. -/
theorem wordCount_and_duration (s : String) (h : cleanEdges s.toList = true) :
    wordCountStr s = wsTokenCount s.toList ∧
    estimateScriptDuration s = jsDurCeil (wsTokenCount s.toList) ∧
    (wsTokenCount s.toList = 250 → estimateScriptDuration s = 100) := by
  have hw := wordCount_eq_tokenCount s h
  refine ⟨hw, ?_, ?_⟩
  · unfold estimateScriptDuration
    rw [hw]
  · intro h250
    unfold estimateScriptDuration
    rw [hw, h250]
    decide

/-- C3 witness: the amended statement applied to a concrete 250-word
script, which indeed reports 100 seconds. -/
theorem wordCount_and_duration_witness :
    cleanEdges (repWords 250).toList = true ∧
    wsTokenCount (repWords 250).toList = 250 ∧
    estimateScriptDuration (repWords 250) = 100 :=
  ⟨by decide, by decide,
   (wordCount_and_duration (repWords 250) (by decide)).2.2 (by decide)⟩

/-- C10 counterexample: with the media tool unavailable and an
extensionless requested path, the regex `\.[^.]+$` does not match, the
path is not rewritten, and the returned `audioPath` equals the path the
caller passed even though it does not end in `.wav`. -/
theorem mockTTS_keeps_extensionless_path :
    (generateMockTTS false "hello world" "voiceover").audioPath = "voiceover" ∧
    endsWithWavCI "voiceover".toList = false := by
  constructor
  · decide
  · decide

/-- C10 (amended): when the media tool is unavailable and the requested
output path carries an extension (a final dot followed by a nonempty
dot-free run) that is not `.wav` in any letter case, the mock synthesizer
rewrites the path to end in `.wav`, returns that rewritten path as
`audioPath` — different from the path the caller passed — and reports the
same duration and the same `"mock"` service as the tool branch; a path
with no extension is the one exception and comes back unchanged. -/
theorem mockTTS_wav_rewrite (text : String) (pre ext : List Char)
    (hne : ext ≠ []) (hnodot : ∀ c ∈ ext, c ≠ '.')
    (hwav : endsWithWavCI (pre ++ '.' :: ext) = false) :
    (generateMockTTS false text (String.mk (pre ++ '.' :: ext))).audioPath =
      String.mk (pre ++ '.' :: ['w', 'a', 'v']) ∧
    String.mk (pre ++ '.' :: ['w', 'a', 'v']) ≠ String.mk (pre ++ '.' :: ext) ∧
    (generateMockTTS false text (String.mk (pre ++ '.' :: ext))).duration =
      (generateMockTTS true text (String.mk (pre ++ '.' :: ext))).duration ∧
    (generateMockTTS false text (String.mk (pre ++ '.' :: ext))).service = "mock" := by
  refine ⟨?_, ?_, rfl, rfl⟩
  · have htl : (String.mk (pre ++ '.' :: ext)).toList = pre ++ '.' :: ext := rfl
    simp only [generateMockTTS, mockWavPath, htl, hwav]
    rw [if_neg (by simp), replaceExtWav_ext pre ext hne hnodot]
    simp
  · intro heq
    have hl : pre ++ '.' :: ['w', 'a', 'v'] = pre ++ '.' :: ext :=
      congrArg String.toList heq
    have hext : ('.' :: ['w', 'a', 'v'] : List Char) = '.' :: ext :=
      List.append_cancel_left hl
    have hext2 : (['w', 'a', 'v'] : List Char) = ext := by
      injection hext
    rw [← hext2] at hwav
    rw [endsWithWavCI_wav pre] at hwav
    exact absurd hwav (by simp)

/-- C10 witness: the rewrite applied to a request for `voiceover.mp3`,
which comes back as `voiceover.wav`. -/
theorem mockTTS_wav_rewrite_witness :
    (generateMockTTS false "hello world"
        (String.mk ("voiceover".toList ++ '.' :: ['m', 'p', '3']))).audioPath =
      String.mk ("voiceover".toList ++ '.' :: ['w', 'a', 'v']) :=
  (mockTTS_wav_rewrite "hello world" "voiceover".toList ['m', 'p', '3']
    (by decide) (by decide) (by decide)).1

/-- C2: for every clip list with pairwise-distinct ranks, the pipeline
sorts strictly descending by rank (a permutation of the input, whatever
the upload order), and the concatenation step receives the per-clip output
files indexed in exactly that sorted order, so the manifest lists them
rank-descending. -/
theorem pipeline_concat_descending (videos : List RankedVideo) (tempDir : String)
    (addOverlays : Bool) (h : (videos.map RankedVideo.rank).Nodup) :
    List.Sorted (fun a b : Int => b < a)
      ((processVideoPipeline videos tempDir addOverlays).sortedVideos.map RankedVideo.rank) ∧
    (processVideoPipeline videos tempDir addOverlays).sortedVideos.Perm videos ∧
    (processVideoPipeline videos tempDir addOverlays).concatOrder =
      (List.range (processVideoPipeline videos tempDir addOverlays).sortedVideos.length).map
        (fun i => tempDir ++ (if addOverlays then "/overlay_" else "/normalized_")
          ++ toString i ++ ".mp4") ∧
    (processVideoPipeline videos tempDir addOverlays).concatManifest =
      concatFileContent (processVideoPipeline videos tempDir addOverlays).concatOrder := by
  have hperm : (sortVideosByRank videos).Perm videos :=
    List.perm_insertionSort rankGe videos
  have hsorted : List.Sorted rankGe (sortVideosByRank videos) :=
    List.sorted_insertionSort rankGe videos
  have hnodup : ((sortVideosByRank videos).map RankedVideo.rank).Nodup := by
    have hp : ((sortVideosByRank videos).map RankedVideo.rank).Perm
        (videos.map RankedVideo.rank) := hperm.map _
    exact hp.nodup_iff.mpr h
  have hne : List.Pairwise (fun a b : RankedVideo => a.rank ≠ b.rank)
      (sortVideosByRank videos) :=
    List.pairwise_map.mp hnodup
  have hpair : List.Pairwise (fun a b : RankedVideo => b.rank < a.rank)
      (sortVideosByRank videos) :=
    (hsorted.and hne).imp (fun hab => lt_of_le_of_ne hab.1 (Ne.symm hab.2))
  have hstrict : List.Sorted (fun a b : Int => b < a)
      ((sortVideosByRank videos).map RankedVideo.rank) := by
    rw [List.Sorted, List.pairwise_map]
    exact hpair
  refine ⟨hstrict, hperm, ?_, rfl⟩
  cases addOverlays <;> simp [processVideoPipeline]

/-- C2 witness: the pipeline on five clips uploaded in rank order
3, 1, 5, 2, 4 concatenates them as ranks 5, 4, 3, 2, 1. -/
theorem pipeline_concat_descending_witness :
    (exampleClips.map RankedVideo.rank).Nodup ∧
    (processVideoPipeline exampleClips "/tmp/job" true).sortedVideos.map RankedVideo.rank
      = [5, 4, 3, 2, 1] ∧
    List.Sorted (fun a b : Int => b < a)
      ((processVideoPipeline exampleClips "/tmp/job" true).sortedVideos.map RankedVideo.rank) :=
  ⟨by decide, by decide,
   (pipeline_concat_descending exampleClips "/tmp/job" true (by decide)).1⟩

/-- C4 counterexample: the probe's frame-rate parser on `"3/2"` returns
the quotient 3/2 = 1.5, not the integer division `3 / 2 = 1` the claim
states (for the standard rate string `"30000/1001"` it likewise returns
about 29.97, not 29). -/
theorem evalFps_not_integer_division :
    evalFps ['3', '/', '2'] = some ((3 : ℚ) / 2) ∧
    ((3 : ℚ) / 2) ≠ (((3 : Int) / (2 : Int) : Int) : ℚ) := by
  constructor
  · have h3 : digitsVal ['3'] = 3 := by decide
    have h2 : digitsVal ['2'] = 2 := by decide
    unfold evalFps
    rw [if_pos (by decide : (['3', '/', '2'] : List Char).contains '/' = true)]
    rw [show splitOnChar '/' ['3', '/', '2'] = [['3'], ['2']] from by decide]
    simp only [List.getD_cons_zero, List.getD_cons_succ]
    rw [jsNumber_digits ['3'] (by decide) (by decide)]
    rw [jsNumber_digits ['2'] (by decide) (by decide)]
    rw [h3, h2]
    norm_num
  · norm_num

/-- C4 (amended): for every frame-rate string of the form `"N/D"` with
digit components, the parser returns the exact quotient `N / D` (ordinary
number division, modeled as exact rational division), and 30 when `D` is
zero. -/
theorem evalFps_rational_quotient (a b : List Char) (N D : Nat)
    (haN : a ≠ [] ∧ a.all Char.isDigit = true ∧ digitsVal a = N)
    (hbD : b ≠ [] ∧ b.all Char.isDigit = true ∧ digitsVal b = D) :
    evalFps (a ++ '/' :: b) =
      if D = 0 then some 30 else some ((N : ℚ) / (D : ℚ)) := by
  obtain ⟨hane, had, hav⟩ := haN
  obtain ⟨hbne, hbd, hbv⟩ := hbD
  unfold evalFps
  have hcontains : ((a ++ '/' :: b) : List Char).contains '/' = true := by
    simp [List.contains]
  rw [if_pos hcontains]
  rw [splitOnChar_pair '/' a b (digits_no_slash a had) (digits_no_slash b hbd)]
  simp only [List.getD_cons_zero, List.getD_cons_succ]
  rw [jsNumber_digits a hane had, jsNumber_digits b hbne hbd, hav, hbv]
  by_cases hD : D = 0
  · subst hD
    simp
  · have hDq : ((D : ℚ)) ≠ 0 := by exact_mod_cast hD
    simp [hD, hDq]

/-- C4 witness: the amended statement applied to `"30/1"`, the default
rate string, and hence the quotient 30. -/
theorem evalFps_rational_quotient_witness :
    evalFps (['3', '0'] ++ '/' :: ['1']) = some (30 : ℚ) := by
  have h := evalFps_rational_quotient ['3', '0'] ['1'] 30 1
    ⟨by decide, by decide, by decide⟩ ⟨by decide, by decide, by decide⟩
  simpa using h

/-- C7: for every probed input with positive height, the normalizer's
filter chain follows the three-way rule on `inputAspect = w / h` against
`targetAspect = 1080 / 1920`: wider inputs are center-cropped to width
`round(h * targetAspect)` at offset `round((w - cropWidth) / 2)` and
scaled to 1080x1920; narrower inputs are scaled to the target width and
letterbox-padded to 1920; equal aspects are scaled directly — and every
branch forces square pixels (`setsar`) and 30 fps. -/
theorem normalize_threeway (w h : Nat) (hh : 0 < h) :
    (targetAspect < (w : ℚ) / (h : ℚ) →
      normalizeVideo w h =
        [.crop (jsRound ((h : ℚ) * targetAspect)) h
           (jsRound (((w : ℚ) - ((jsRound ((h : ℚ) * targetAspect) : Int) : ℚ)) / 2)) 0,
         .scale targetWidth targetHeight, .setsar, .fps targetFps]) ∧
    ((w : ℚ) / (h : ℚ) < targetAspect →
      normalizeVideo w h =
        [.scaleWidth targetWidth, .pad targetWidth targetHeight, .setsar, .fps targetFps]) ∧
    ((w : ℚ) / (h : ℚ) = targetAspect →
      normalizeVideo w h = [.scale targetWidth targetHeight, .setsar, .fps targetFps]) ∧
    VFilter.setsar ∈ normalizeVideo w h ∧ VFilter.fps targetFps ∈ normalizeVideo w h := by
  have hfin : jsDivNat w h = .fin ((w : ℚ) / (h : ℚ)) := by
    unfold jsDivNat
    rw [if_neg (Nat.pos_iff_ne_zero.mp hh)]
  have hA : targetAspect < (w : ℚ) / (h : ℚ) →
      normalizeVideo w h =
        [.crop (jsRound ((h : ℚ) * targetAspect)) h
           (jsRound (((w : ℚ) - ((jsRound ((h : ℚ) * targetAspect) : Int) : ℚ)) / 2)) 0,
         .scale targetWidth targetHeight, .setsar, .fps targetFps] := by
    intro hgt
    unfold normalizeVideo
    rw [hfin]
    simp only [jsGtB]
    rw [if_pos (by simpa using hgt)]
  have hB : (w : ℚ) / (h : ℚ) < targetAspect →
      normalizeVideo w h =
        [.scaleWidth targetWidth, .pad targetWidth targetHeight, .setsar, .fps targetFps] := by
    intro hlt
    unfold normalizeVideo
    rw [hfin]
    simp only [jsGtB, jsLtB]
    rw [if_neg (by simpa using lt_asymm hlt), if_pos (by simpa using hlt)]
  have hC : (w : ℚ) / (h : ℚ) = targetAspect →
      normalizeVideo w h = [.scale targetWidth targetHeight, .setsar, .fps targetFps] := by
    intro heq
    unfold normalizeVideo
    rw [hfin]
    simp only [jsGtB, jsLtB]
    rw [if_neg (by simp [heq]), if_neg (by simp [heq])]
  refine ⟨hA, hB, hC, ?_, ?_⟩
  · rcases lt_trichotomy ((w : ℚ) / (h : ℚ)) targetAspect with h1 | h1 | h1
    · rw [hB h1]; simp
    · rw [hC h1]; simp
    · rw [hA h1]; simp
  · rcases lt_trichotomy ((w : ℚ) / (h : ℚ)) targetAspect with h1 | h1 | h1
    · rw [hB h1]; simp
    · rw [hC h1]; simp
    · rw [hA h1]; simp

/-- C7 witness: a 1920x1080 landscape input takes the crop branch. -/
theorem normalize_threeway_witness :
    targetAspect < ((1920 : Nat) : ℚ) / ((1080 : Nat) : ℚ) ∧
    normalizeVideo 1920 1080 =
      [.crop (jsRound (((1080 : Nat) : ℚ) * targetAspect)) 1080
         (jsRound ((((1920 : Nat) : ℚ) -
           ((jsRound (((1080 : Nat) : ℚ) * targetAspect) : Int) : ℚ)) / 2)) 0,
       .scale targetWidth targetHeight, .setsar, .fps targetFps] :=
  ⟨by norm_num [targetAspect, targetWidth, targetHeight],
   (normalize_threeway 1920 1080 (by norm_num)).1
     (by norm_num [targetAspect, targetWidth, targetHeight])⟩

end ShortsRanker
